import Mathlib

/-!
Verification development for the alidash terminal dashboard.

The Lean definitions below are a shallow embedding of the Go sources:

* string helpers mirror the `strings` standard-library functions used by the
  code (on the ASCII data the program manipulates);
* `ResolveToIPs`, `FindResources` and the `match*` filters embed
  `internal/service/finder.go`, with the network-facing service calls
  (Aliyun SDK, system resolver) represented as explicit oracles and an
  effect log recording which lookups were performed;
* `NavState.navigateTo` / `NavState.navigateBack` embed the navigation part
  of `internal/tui/app.go`;
* `YankState` steps embed the double-press copy gesture of
  `internal/tui/components/table.go` and `viewport.go`;
* `TableModel.Search` / `TableModel.NextSearchMatch` embed the list search
  of `internal/tui/components/table.go`;
* `ModalModel.Update` embeds the modal state machine of
  `internal/tui/components/modal.go` (the full version that includes the
  region-select and input variants), with the embedded bubbles
  list/textinput collaborators abstracted to the fields the modal reads;
* `Model.updateRegionSelected` embeds the `RegionSelectedMsg` handler of
  `internal/tui/app.go`.
-/

/-! ## Go string helpers (`strings` package, on ASCII data) -/

/-- Check that `needle` occurs at the start of `hay` (character lists). -/
def listHasPre : List Char → List Char → Bool
  | [], _ => true
  | _ :: _, [] => false
  | a :: as, b :: bs => a == b && listHasPre as bs

/-- Check that `needle` occurs somewhere inside `hay` (character lists). -/
def listHasSub (needle : List Char) : List Char → Bool
  | [] => listHasPre needle []
  | c :: t => listHasPre needle (c :: t) || listHasSub needle t

/-- Embedding of `strings.Contains(hay, sub)`. -/
def goContains (hay sub : String) : Bool :=
  listHasSub sub.data hay.data

/-- Embedding of `strings.ToLower` (ASCII range, which covers all data the
finder and the widgets compare). -/
def goToLower (s : String) : String :=
  String.mk (s.data.map Char.toLower)

/-- Embedding of `strings.HasSuffix(s, suffix)`. -/
def goHasSuffix (s suffix : String) : Bool :=
  listHasPre suffix.data.reverse s.data.reverse

/-- Embedding of `strings.TrimSuffix(s, suffix)`. -/
def goTrimSuffix (s suffix : String) : String :=
  if goHasSuffix s suffix then String.mk (s.data.take (s.data.length - suffix.data.length))
  else s

/-- White-space test of `unicode.IsSpace` restricted to the Latin-1 range,
as used by `strings.TrimSpace`. -/
def goIsSpace (c : Char) : Bool :=
  c == ' ' || c == '\t' || c == '\n' || c == Char.ofNat 11 || c == Char.ofNat 12 ||
    c == '\r' || c == Char.ofNat 133 || c == Char.ofNat 160

/-- Embedding of `strings.TrimSpace`. -/
def goTrimSpace (s : String) : String :=
  String.mk ((((s.data.dropWhile goIsSpace).reverse.dropWhile goIsSpace).reverse))

/-! ## Data shapes used by the finder (`internal/service/finder.go`)

Each structure keeps exactly the fields the finder reads; the remaining SDK
fields do not influence any of the embedded functions. -/

/-- One managed DNS zone, as returned by `DNSService.FetchDomains`. -/
structure DNSDomain where
  DomainName : String
deriving DecidableEq, Repr

/-- One DNS record, as returned by `DNSService.FetchDomainRecords`.
The Go field `Type` is spelled `rType` because `Type` is reserved in Lean. -/
structure DNSRecord where
  RR : String
  rType : String
  Value : String
deriving DecidableEq, Repr

/-- A matched DNS record together with its zone (`DNSRecordMatch`). -/
structure DNSRecordMatch where
  DomainName : String
  Record : DNSRecord
deriving DecidableEq, Repr

/-- ECS instance fields read by `matchECSInstances` and `fetchAllENIs`. -/
structure ECSInstance where
  InstanceId : String
  PublicIpAddress : List String
  VpcPrivateIpAddress : List String
  InnerIpAddress : List String
  EipAddress : String
deriving DecidableEq, Repr

/-- Network-interface fields read by `matchENIs`: the primary private IP and
the addresses of the private-IP set. -/
structure NetworkInterfaceSet where
  PrivateIpAddress : String
  PrivateIpSets : List String
deriving DecidableEq, Repr

/-- Load-balancer field read by `matchSLBInstances`. -/
structure LoadBalancer where
  Address : String
deriving DecidableEq, Repr

/-- RDS detail fields read by `matchRDSDetailedInstances`. -/
structure RDSInstanceDetail where
  InternalConnectionStr : String
  PublicConnectionStr : String
  InternalIP : String
  PublicIP : String
deriving DecidableEq, Repr

/-- Redis instance fields read by `matchRedisInstances`. -/
structure KVStoreInstance where
  ConnectionDomain : String
  PrivateIp : String
deriving DecidableEq, Repr

/-- RocketMQ instance field read by `matchRocketMQInstances`. -/
structure RocketMQInstance where
  InstanceName : String
deriving DecidableEq, Repr

/-! ## The resolve step (`ResolveToIPs`, finder.go lines 78-143) -/

/-- The two DNS collaborator calls the finder makes, as value-level oracles. -/
structure DNSOracle where
  FetchDomains : Except String (List DNSDomain)
  FetchDomainRecords : String → Except String (List DNSRecord)

/-- Lookups the resolve step can perform; `ResolveToIPs` returns the list of
lookups it actually executed, in order. -/
inductive ResolveEffect
  | aliyunFetchDomains
  | aliyunFetchRecords (zone : String)
  | systemLookup (host : String)
deriving DecidableEq, Repr

/-- Body of the zone loop of `resolveViaAliyunDNS`: for every managed zone
whose name is a suffix of (or equal to) the query, fetch its records and
collect the values of `A` records whose RR matches the expected host part. -/
def collectZoneIPs (o : DNSOracle) (domain : String) :
    List DNSDomain → List String × List ResolveEffect
  | [] => ([], [])
  | d :: ds =>
    let rest := collectZoneIPs o domain ds
    if goHasSuffix domain d.DomainName || domain == d.DomainName then
      match o.FetchDomainRecords d.DomainName with
      | .error _ => (rest.1, .aliyunFetchRecords d.DomainName :: rest.2)
      | .ok records =>
        let expectedRR :=
          if domain == d.DomainName then "@"
          else goTrimSuffix domain ("." ++ d.DomainName)
        let vals := (records.filter (fun r =>
          r.rType == "A" && (r.RR == expectedRR || r.RR ++ "." ++ d.DomainName == domain))).map
            (fun r => r.Value)
        (vals ++ rest.1, .aliyunFetchRecords d.DomainName :: rest.2)
    else rest

/-- Embedding of `resolveViaAliyunDNS` (finder.go lines 105-143), returning
the collected IPs together with the log of collaborator calls. -/
def resolveViaAliyunDNS (o : DNSOracle) (domain : String) :
    Except String (List String) × List ResolveEffect :=
  match o.FetchDomains with
  | .error e => (.error e, [.aliyunFetchDomains])
  | .ok ds =>
    let r := collectZoneIPs o domain ds
    (.ok r.1, .aliyunFetchDomains :: r.2)

/-- Embedding of `FinderService.ResolveToIPs` (finder.go lines 78-102).
`isIP` stands for the Go standard-library test `net.ParseIP(input) != nil`
and `sysLookup` for `net.LookupHost`; both are collaborators outside the
repository.  The result carries the log of lookups performed. -/
def ResolveToIPs (isIP : String → Bool) (o : DNSOracle)
    (sysLookup : String → Except String (List String)) (input0 : String) :
    (List String × String) × List ResolveEffect :=
  let input := goTrimSpace input0
  if isIP input then (([input], input), [])
  else
    let ali := resolveViaAliyunDNS o input
    match ali.1 with
    | .ok ips =>
      if ips.length > 0 then ((ips, input), ali.2)
      else
        match sysLookup input with
        | .ok addrs => ((addrs, input), ali.2 ++ [.systemLookup input])
        | .error _ => (([], input), ali.2 ++ [.systemLookup input])
    | .error _ =>
      match sysLookup input with
      | .ok addrs => ((addrs, input), ali.2 ++ [.systemLookup input])
      | .error _ => (([], input), ali.2 ++ [.systemLookup input])

/-- Digits-to-number helper for the IPv4 parser model. -/
def digitsToNat (l : List Char) : Nat :=
  l.foldl (fun n c => n * 10 + (c.toNat - 48)) 0

/-- One dotted-quad field: 1-3 decimal digits, value at most 255, no leading
zero (the acceptance rule of current `net.ParseIP`). -/
def ipv4FieldOk (l : List Char) : Bool :=
  !l.isEmpty && l.all Char.isDigit && decide (l.length ≤ 3) &&
    decide (digitsToNat l ≤ 255) && (decide (l.length = 1) || !(l.headD '0' == '0'))

/-- Split a character list on the dot separator. -/
def splitOnDot : List Char → List (List Char)
  | [] => [[]]
  | c :: rest =>
    if c == '.' then [] :: splitOnDot rest
    else
      match splitOnDot rest with
      | [] => [[c]]
      | g :: gs => (c :: g) :: gs

/-- Model of the Go standard-library test `net.ParseIP(input) != nil` on
IPv4 dotted-quad literals (the collaborator is outside the repository; the
claims only exercise IPv4 inputs). -/
def goParseIPv4 (s : String) : Bool :=
  match splitOnDot s.data with
  | [a, b, c, d] => ipv4FieldOk a && ipv4FieldOk b && ipv4FieldOk c && ipv4FieldOk d
  | _ => false

/-! ## Category matching (`containsAny` and the `match*` filters) -/

/-- Embedding of `containsAny` (finder.go lines 288-296): case-insensitive
substring test of any non-empty search string against the target. -/
def containsAny (target : String) (searches : List String) : Bool :=
  searches.any (fun s => s != "" && goContains (goToLower target) (goToLower s))

/-- Row predicate of `matchECSInstances`: any IP-bearing field contains one
of the searched IPs (the `goto next` chain in the Go loop). -/
def ecsInstanceMatches (ips : List String) (inst : ECSInstance) : Bool :=
  inst.PublicIpAddress.any (fun pip => containsAny pip ips) ||
    inst.VpcPrivateIpAddress.any (fun pip => containsAny pip ips) ||
    inst.InnerIpAddress.any (fun pip => containsAny pip ips) ||
    containsAny inst.EipAddress ips

/-- Embedding of `matchECSInstances` (finder.go lines 299-335). -/
def matchECSInstances (instances : List ECSInstance) (ips : List String) : List ECSInstance :=
  if ips.length == 0 then []
  else instances.filter (ecsInstanceMatches ips)

/-- Embedding of `matchENIs` (finder.go lines 338-359). -/
def matchENIs (enis : List NetworkInterfaceSet) (ips : List String) : List NetworkInterfaceSet :=
  if ips.length == 0 then []
  else
    enis.filter (fun eni =>
      containsAny eni.PrivateIpAddress ips ||
        eni.PrivateIpSets.any (fun pip => containsAny pip ips))

/-- Embedding of `matchSLBInstances` (finder.go lines 362-374). -/
def matchSLBInstances (lbs : List LoadBalancer) (ips : List String) : List LoadBalancer :=
  if ips.length == 0 then []
  else lbs.filter (fun lb => containsAny lb.Address ips)

/-- Record loop of `matchDNSRecords` for one zone (finder.go lines 390-418):
the three `if`/`continue` clauses append a record at most once. -/
def matchRecordsInZone (ips : List String) (domain : String) (zone : String) :
    List DNSRecord → List DNSRecordMatch
  | [] => []
  | r :: rest =>
    if r.rType == "A" && containsAny r.Value ips then
      ⟨zone, r⟩ :: matchRecordsInZone ips domain zone rest
    else if domain != "" && goContains (goToLower r.Value) (goToLower domain) then
      ⟨zone, r⟩ :: matchRecordsInZone ips domain zone rest
    else if domain != "" &&
        (goContains (goToLower (r.RR ++ "." ++ zone)) (goToLower domain) ||
          goContains (goToLower r.RR) (goToLower domain)) then
      ⟨zone, r⟩ :: matchRecordsInZone ips domain zone rest
    else matchRecordsInZone ips domain zone rest

/-- Zone loop of `matchDNSRecords` (finder.go lines 384-419): a failed
record fetch for one zone is skipped with `continue`. -/
def matchDomainsLoop (o : DNSOracle) (ips : List String) (domain : String) :
    List DNSDomain → List DNSRecordMatch
  | [] => []
  | d :: ds =>
    (match o.FetchDomainRecords d.DomainName with
      | .error _ => []
      | .ok rs => matchRecordsInZone ips domain d.DomainName rs) ++
      matchDomainsLoop o ips domain ds

/-- Embedding of `matchDNSRecords` (finder.go lines 377-421). -/
def matchDNSRecords (o : DNSOracle) (ips : List String) (domain : String) :
    Except String (List DNSRecordMatch) :=
  match o.FetchDomains with
  | .error e => .error e
  | .ok ds => .ok (matchDomainsLoop o ips domain ds)

/-- Embedding of `matchRDSDetailedInstances` (finder.go lines 424-453). -/
def matchRDSDetailedInstances (instances : List RDSInstanceDetail) (ips : List String)
    (domain : String) : List RDSInstanceDetail :=
  instances.filter (fun inst =>
    (domain != "" && goContains (goToLower inst.InternalConnectionStr) (goToLower domain)) ||
      (domain != "" && goContains (goToLower inst.PublicConnectionStr) (goToLower domain)) ||
      containsAny inst.InternalIP ips ||
      containsAny inst.PublicIP ips ||
      (containsAny inst.InternalConnectionStr ips || containsAny inst.PublicConnectionStr ips))

/-- Embedding of `matchRedisInstances` (finder.go lines 456-470). -/
def matchRedisInstances (instances : List KVStoreInstance) (ips : List String)
    (domain : String) : List KVStoreInstance :=
  instances.filter (fun inst =>
    (domain != "" && goContains (goToLower inst.ConnectionDomain) (goToLower domain)) ||
      containsAny inst.PrivateIp ips)

/-- Embedding of `matchRocketMQInstances` (finder.go lines 475-488). -/
def matchRocketMQInstances (instances : List RocketMQInstance) (ips : List String)
    (domain : String) : List RocketMQInstance :=
  if domain == "" then []
  else instances.filter (fun inst =>
    goContains (goToLower inst.InstanceName) (goToLower domain))

/-! ## The fan-out (`FindResources`, finder.go lines 146-265) -/

/-- Aggregated result of the fan-out (`FindResult`, finder.go lines 45-55). -/
structure FindResult where
  Query : String
  ResolvedIPs : List String
  ECSInstances : List ECSInstance
  ENIs : List NetworkInterfaceSet
  SLBInstances : List LoadBalancer
  DNSRecords : List DNSRecordMatch
  RDSInstances : List RDSInstanceDetail
  RedisInstances : List KVStoreInstance
  RocketMQInstances : List RocketMQInstance
deriving DecidableEq, Repr

/-- Embedding of `FindResult.HasResults` (finder.go lines 491-499). -/
def FindResult.HasResults (r : FindResult) : Bool :=
  decide (r.ECSInstances.length > 0) || decide (r.ENIs.length > 0) ||
    decide (r.SLBInstances.length > 0) || decide (r.DNSRecords.length > 0) ||
    decide (r.RDSInstances.length > 0) || decide (r.RedisInstances.length > 0) ||
    decide (r.RocketMQInstances.length > 0)

/-- Embedding of `FindResult.TotalCount` (finder.go lines 502-510). -/
def FindResult.TotalCount (r : FindResult) : Nat :=
  r.ECSInstances.length + r.ENIs.length + r.SLBInstances.length + r.DNSRecords.length +
    r.RDSInstances.length + r.RedisInstances.length + r.RocketMQInstances.length

/-- Outcomes of the collaborator fetches the seven fan-out tasks perform.
Each top-level field is the result of the network call made by one task;
`eniFetch` and the two DNS calls are the per-item sub-fetches whose errors
the code skips locally. -/
structure FetchOutcomes where
  ecsFetch : Except String (List ECSInstance)
  eniInstancesFetch : Except String (List ECSInstance)
  eniFetch : String → Except String (List NetworkInterfaceSet)
  slbFetch : Except String (List LoadBalancer)
  dns : DNSOracle
  rdsFetch : Except String (List RDSInstanceDetail)
  redisFetch : Except String (List KVStoreInstance)
  mqFetch : Except String (List RocketMQInstance)

/-- Embedding of `fetchAllENIs` (finder.go lines 268-285): fetch all
instances, then the interfaces of each, skipping per-instance errors. -/
def fetchAllENIs (f : FetchOutcomes) : Except String (List NetworkInterfaceSet) :=
  match f.eniInstancesFetch with
  | .error e => .error e
  | .ok insts =>
    .ok (insts.flatMap (fun inst =>
      match f.eniFetch inst.InstanceId with
      | .error _ => []
      | .ok enis => enis))

/-- Embedding of `FindResources` (finder.go lines 146-265).  The seven tasks
write disjoint fields of the shared result under a mutex and a failed fetch
leaves that field at its zero value, so the aggregate is the deterministic
record below. -/
def FindResources (ips : List String) (domain : String) (f : FetchOutcomes) : FindResult where
  Query := domain
  ResolvedIPs := ips
  ECSInstances :=
    match f.ecsFetch with
    | .error _ => []
    | .ok instances => matchECSInstances instances ips
  ENIs :=
    match fetchAllENIs f with
    | .error _ => []
    | .ok enis => matchENIs enis ips
  SLBInstances :=
    match f.slbFetch with
    | .error _ => []
    | .ok lbs => matchSLBInstances lbs ips
  DNSRecords :=
    match matchDNSRecords f.dns ips domain with
    | .error _ => []
    | .ok matched => matched
  RDSInstances :=
    match f.rdsFetch with
    | .error _ => []
    | .ok instances => matchRDSDetailedInstances instances ips domain
  RedisInstances :=
    match f.redisFetch with
    | .error _ => []
    | .ok instances => matchRedisInstances instances ips domain
  RocketMQInstances :=
    match f.mqFetch with
    | .error _ => []
    | .ok instances => matchRocketMQInstances instances ips domain

/-- The Go function always ends with `return result, nil`: the aggregate is
returned without error whatever the individual fetches did. -/
def FindResourcesE (ips : List String) (domain : String) (f : FetchOutcomes) :
    Except String FindResult :=
  .ok (FindResources ips domain f)

/-- The seven resource categories of the fan-out. -/
inductive Category
  | ecs | eni | slb | dns | rds | redis | mq
deriving DecidableEq, Repr

/-- Force the primary fetch of one category to fail. -/
def failOne (c : Category) (f : FetchOutcomes) : FetchOutcomes :=
  match c with
  | .ecs => { f with ecsFetch := .error "fetch failed" }
  | .eni => { f with eniInstancesFetch := .error "fetch failed" }
  | .slb => { f with slbFetch := .error "fetch failed" }
  | .dns => { f with dns := { f.dns with FetchDomains := .error "fetch failed" } }
  | .rds => { f with rdsFetch := .error "fetch failed" }
  | .redis => { f with redisFetch := .error "fetch failed" }
  | .mq => { f with mqFetch := .error "fetch failed" }

/-- Length of one category sequence in a `FindResult`. -/
def catLen (r : FindResult) : Category → Nat
  | .ecs => r.ECSInstances.length
  | .eni => r.ENIs.length
  | .slb => r.SLBInstances.length
  | .dns => r.DNSRecords.length
  | .rds => r.RDSInstances.length
  | .redis => r.RedisInstances.length
  | .mq => r.RocketMQInstances.length

/-- Replace one category sequence of a `FindResult` by the empty sequence. -/
def eraseCat (c : Category) (r : FindResult) : FindResult :=
  match c with
  | .ecs => { r with ECSInstances := [] }
  | .eni => { r with ENIs := [] }
  | .slb => { r with SLBInstances := [] }
  | .dns => { r with DNSRecords := [] }
  | .rds => { r with RDSInstances := [] }
  | .redis => { r with RedisInstances := [] }
  | .mq => { r with RocketMQInstances := [] }

/-- All seven categories, in the field order of `FindResult`. -/
def allCategories : List Category :=
  [.ecs, .eni, .slb, .dns, .rds, .redis, .mq]

/-- Whether the primary fetch of a category succeeded. -/
def primaryOk (f : FetchOutcomes) : Category → Bool
  | .ecs => match f.ecsFetch with | .ok _ => true | .error _ => false
  | .eni => match f.eniInstancesFetch with | .ok _ => true | .error _ => false
  | .slb => match f.slbFetch with | .ok _ => true | .error _ => false
  | .dns => match f.dns.FetchDomains with | .ok _ => true | .error _ => false
  | .rds => match f.rdsFetch with | .ok _ => true | .error _ => false
  | .redis => match f.redisFetch with | .ok _ => true | .error _ => false
  | .mq => match f.mqFetch with | .ok _ => true | .error _ => false

/-! ## Modal subsystem (`internal/tui/components/modal.go`)

The embedded bubbles `list.Model` collaborators are abstracted to the two
facts the modal reads from them: whether the list is in filtering state and
which item is currently selected.  Forwarding a key to an embedded list
never changes the modal fields, so it is modelled as the identity on the
modal state.  The embedded `textinput.Model` is abstracted to its value:
forwarding a printable key appends it, any other forwarded key leaves the
value unchanged. -/

/-- The modal variants (`ModalType`). -/
inductive ModalType
  | info | error | success | confirm | profileSelect | regionSelect | input
deriving DecidableEq, Repr

/-- Key presses the modal distinguishes.  A plain rune key (such as `q`) is
`char c`; `space` is kept separate because the dismiss branch matches the
dedicated `tea.KeySpace` type. -/
inductive ModalKey
  | enter | esc | space | ctrlP | ctrlN | char (c : Char)
deriving DecidableEq, Repr

/-- Abstraction of a bubbles `list.Model` as read by the modal. -/
structure SelectList where
  filtering : Bool
  selectedItem : Option String
deriving DecidableEq, Repr

/-- A bubbles list that is not filtering and has no selection. -/
def emptySelectList : SelectList := ⟨false, none⟩

/-- The modal state (`ModalModel`), with the collaborator widgets
abstracted as described above. -/
structure ModalModel where
  Visible : Bool
  modalType : ModalType
  title : String
  message : String
  profileList : SelectList
  regionList : SelectList
  regionsLoading : Bool
  inputValue : String
  inputHistory : List String
  historyIndex : Int
  currentInput : String
deriving DecidableEq, Repr

/-- Messages the modal can emit (`ProfileSelectedMsg`, `RegionSelectedMsg`,
`InputSubmittedMsg`, `ModalDismissedMsg`). -/
inductive ModalMsg
  | profileSelected (profile : String)
  | regionSelected (region : String)
  | inputSubmitted (value : String)
  | modalDismissed
deriving DecidableEq, Repr

/-- Embedding of `NewModalModel`: hidden, zero variant. -/
def NewModalModel : ModalModel :=
  { Visible := false, modalType := .info, title := "", message := "",
    profileList := emptySelectList, regionList := emptySelectList,
    regionsLoading := false, inputValue := "", inputHistory := [],
    historyIndex := -1, currentInput := "" }

/-- Embedding of `NewInfoModal`. -/
def NewInfoModal (message : String) : ModalModel :=
  { NewModalModel with
    Visible := true
    modalType := .info
    title := "Info"
    message := message }

/-- Embedding of `NewErrorModal`. -/
def NewErrorModal (message : String) : ModalModel :=
  { NewModalModel with
    Visible := true
    modalType := .error
    title := "Error"
    message := message }

/-- Embedding of `NewSuccessModal`. -/
def NewSuccessModal (message : String) : ModalModel :=
  { NewModalModel with
    Visible := true
    modalType := .success
    title := "Success"
    message := message }

/-- Embedding of `NewProfileSelectionModal`: the bubbles list starts without
a filter and with the current profile selected (the first profile when the
current one is not in the list, no selection when the list is empty). -/
def NewProfileSelectionModal (profiles : List String) (currentProfile : String) : ModalModel :=
  { NewModalModel with
    Visible := true
    modalType := .profileSelect
    title := "Select Profile"
    profileList :=
      { filtering := false
        selectedItem :=
          if profiles.isEmpty then none
          else if profiles.contains currentProfile then some currentProfile
          else profiles.head? } }

/-- Embedding of `NewRegionSelectionModal`: created in loading state. -/
def NewRegionSelectionModal (currentRegion : String) : ModalModel :=
  { NewModalModel with
    Visible := true
    modalType := .regionSelect
    title := "Select Region"
    regionsLoading := true
    message := currentRegion }

/-- Embedding of `NewInputModalWithHistory`: visible input variant, not
browsing history. -/
def NewInputModalWithHistory (title prompt : String) (history : List String) : ModalModel :=
  { NewModalModel with
    Visible := true
    modalType := .input
    title := title
    message := prompt
    inputValue := ""
    inputHistory := history
    historyIndex := -1 }

/-- Embedding of `ModalModel.Hide`. -/
def ModalModel.Hide (m : ModalModel) : ModalModel :=
  { m with Visible := false }

/-- Embedding of `ModalModel.Show`. -/
def ModalModel.Show (m : ModalModel) : ModalModel :=
  { m with Visible := true }

/-- Forwarding a key to the embedded `textinput.Model` (collaborator):
printable runes are appended to the value, other keys leave it unchanged. -/
def feedInputKey (m : ModalModel) (k : ModalKey) : ModalModel :=
  match k with
  | .char c => { m with inputValue := m.inputValue.push c }
  | .space => { m with inputValue := m.inputValue.push ' ' }
  | _ => m

/-- The Info/Error/Success/Confirm arm of `ModalModel.Update` (the default
switch branch): dismiss on the Enter, Escape or Space key types only. -/
def updateDismissArm (m : ModalModel) (k : ModalKey) : ModalModel × Option ModalMsg :=
  match k with
  | .enter => ({ m with Visible := false }, some .modalDismissed)
  | .esc => ({ m with Visible := false }, some .modalDismissed)
  | .space => ({ m with Visible := false }, some .modalDismissed)
  | _ => (m, none)

/-- The ProfileSelect arm of `ModalModel.Update`: while the list filters,
all keys go to the list; otherwise Enter selects, Escape and q dismiss, and
every other key is forwarded to the list. -/
def updateProfileArm (m : ModalModel) (k : ModalKey) : ModalModel × Option ModalMsg :=
  if m.profileList.filtering then (m, none)
  else
    match k with
    | .enter =>
      match m.profileList.selectedItem with
      | some p => ({ m with Visible := false }, some (.profileSelected p))
      | none => (m, none)
    | .esc => ({ m with Visible := false }, some .modalDismissed)
    | .char c =>
      if c == 'q' then ({ m with Visible := false }, some .modalDismissed)
      else (m, none)
    | _ => (m, none)

/-- The loading part of the RegionSelect arm: only Escape and q dismiss. -/
def updateRegionLoadingArm (m : ModalModel) (k : ModalKey) : ModalModel × Option ModalMsg :=
  match k with
  | .esc => ({ m with Visible := false }, some .modalDismissed)
  | .char c =>
    if c == 'q' then ({ m with Visible := false }, some .modalDismissed)
    else (m, none)
  | _ => (m, none)

/-- The loaded part of the RegionSelect arm: while the list filters, keys go
to the list; otherwise Enter selects, Escape and q dismiss. -/
def updateRegionLoadedArm (m : ModalModel) (k : ModalKey) : ModalModel × Option ModalMsg :=
  if m.regionList.filtering then (m, none)
  else
    match k with
    | .enter =>
      match m.regionList.selectedItem with
      | some r => ({ m with Visible := false }, some (.regionSelected r))
      | none => (m, none)
    | .esc => ({ m with Visible := false }, some .modalDismissed)
    | .char c =>
      if c == 'q' then ({ m with Visible := false }, some .modalDismissed)
      else (m, none)
    | _ => (m, none)

/-- The RegionSelect arm of `ModalModel.Update`: while loading only Escape
and q dismiss; otherwise it behaves like the profile arm. -/
def updateRegionArm (m : ModalModel) (k : ModalKey) : ModalModel × Option ModalMsg :=
  if m.regionsLoading then updateRegionLoadingArm m k
  else updateRegionLoadedArm m k

/-- The Input arm of `ModalModel.Update`: Enter submits a non-empty value,
Escape dismisses, Ctrl-P/Ctrl-N walk the history, everything else goes to
the text input. -/
def updateInputArm (m : ModalModel) (k : ModalKey) : ModalModel × Option ModalMsg :=
  match k with
  | .enter =>
    if m.inputValue != "" then
      ({ m with Visible := false, historyIndex := -1 }, some (.inputSubmitted m.inputValue))
    else (feedInputKey m .enter, none)
  | .esc =>
    ({ m with Visible := false, historyIndex := -1 }, some .modalDismissed)
  | .ctrlP =>
    if m.inputHistory.length > 0 then
      if m.historyIndex == -1 then
        ({ m with
            currentInput := m.inputValue
            historyIndex := 0
            inputValue := m.inputHistory.getD 0 "" }, none)
      else
        let i :=
          if m.historyIndex < (m.inputHistory.length : Int) - 1 then m.historyIndex + 1
          else m.historyIndex
        ({ m with historyIndex := i, inputValue := m.inputHistory.getD i.toNat "" }, none)
    else (m, none)
  | .ctrlN =>
    if m.historyIndex > 0 then
      ({ m with
          historyIndex := m.historyIndex - 1
          inputValue := m.inputHistory.getD (m.historyIndex - 1).toNat "" }, none)
    else if m.historyIndex == 0 then
      ({ m with historyIndex := -1, inputValue := m.currentInput }, none)
    else (m, none)
  | k => (feedInputKey m k, none)

/-- Embedding of `ModalModel.Update` restricted to key messages
(modal.go lines 538-721), dispatching on the variant as the Go switch does. -/
def ModalModel.Update (m : ModalModel) (k : ModalKey) : ModalModel × Option ModalMsg :=
  if !m.Visible then (m, none)
  else
    match m.modalType with
    | .profileSelect => updateProfileArm m k
    | .regionSelect => updateRegionArm m k
    | .input => updateInputArm m k
    | _ => updateDismissArm m k

/-- Modelled from the spec: the caller that records submitted Input-modal
values (the page code invoking `NewInputModalWithHistory`, not present under
src/) keeps previously submitted values most recent first, so a new
submission is prepended. -/
def submitToHistory (v : String) (history : List String) : List String :=
  v :: history

/-! ## Page navigation (`internal/tui/app.go` and `internal/tui/types/types.go`) -/

/-- The page enum (`PageType`).  `PageECSNetworkInterfaces` appears in the
app shell in addition to the constants of types.go. -/
inductive PageType
  | PageMenu
  | PageECSList
  | PageECSDetail
  | PageECSJSONDetail
  | PageECSDisks
  | PageECSNetworkInterfaces
  | PageSecurityGroups
  | PageSecurityGroupRules
  | PageSecurityGroupInstances
  | PageInstanceSecurityGroups
  | PageDNSDomains
  | PageDNSRecords
  | PageSLBList
  | PageSLBDetail
  | PageSLBListeners
  | PageSLBVServerGroups
  | PageSLBBackendServers
  | PageOSSBuckets
  | PageOSSObjects
  | PageOSSObjectDetail
  | PageRDSList
  | PageRDSDetail
  | PageRDSDatabases
  | PageRDSAccounts
  | PageRedisList
  | PageRedisDetail
  | PageRedisAccounts
  | PageRocketMQList
  | PageRocketMQDetail
  | PageRocketMQTopics
  | PageRocketMQGroups
deriving DecidableEq, Repr

/-- The navigation sub-state of the root `Model`: the current page and the
back stack (`currentPage`, `previousPages`). -/
structure NavState where
  currentPage : PageType
  previousPages : List PageType
deriving DecidableEq, Repr

/-- The state `New()` starts from: menu page, empty stack. -/
def initialNavState : NavState :=
  ⟨.PageMenu, []⟩

/-- Embedding of the navigation part of `Model.navigateTo` (app.go lines
688-692): push the current page, switch to the target. -/
def NavState.navigateTo (m : NavState) (page : PageType) : NavState :=
  { currentPage := page, previousPages := m.previousPages ++ [m.currentPage] }

/-- Embedding of `Model.navigateBack` (app.go lines 886-902): pop the last
pushed page; no-op on an empty stack. -/
def NavState.navigateBack (m : NavState) : NavState :=
  if m.previousPages.length == 0 then m
  else
    { currentPage := m.previousPages.getLastD m.currentPage
      previousPages := m.previousPages.dropLast }

/-- A navigation request: `NavigateMsg` or `GoBackMsg`. -/
inductive NavEvent
  | nav (page : PageType)
  | back
deriving DecidableEq, Repr

/-- One navigation request applied to the navigation state. -/
def navStep (m : NavState) : NavEvent → NavState
  | .nav p => m.navigateTo p
  | .back => m.navigateBack

/-- A sequence of navigation requests applied in order. -/
def navRun (m : NavState) (evs : List NavEvent) : NavState :=
  evs.foldl navStep m

/-- Event sequences in which every back request matches a navigate request
of the same sequence (the bracketing that makes "the corresponding push"
well defined). -/
inductive BalancedNav : List NavEvent → Prop
  | nil : BalancedNav []
  | append {l1 l2 : List NavEvent} : BalancedNav l1 → BalancedNav l2 → BalancedNav (l1 ++ l2)
  | bracket (p : PageType) {l : List NavEvent} :
      BalancedNav l → BalancedNav (NavEvent.nav p :: l ++ [NavEvent.back])

/-! ## The yank (double-press copy) gesture
(`internal/tui/components/table.go` lines 236-255 and
`internal/tui/components/viewport.go` lines 300-316) -/

/-- Yank tracking state shared by the table and the viewport:
`yankLastTime` (milliseconds) and `yankCount`. -/
structure YankState where
  yankLastTime : Nat
  yankCount : Nat
deriving DecidableEq, Repr

/-- The press window: `500 * time.Millisecond`. -/
def yankWindowMillis : Nat := 500

/-- Embedding of the yank branch of `TableModel.Update`: the returned flag
is whether a `CopyDataMsg` command was emitted; the table emits it only when
`SelectedRowData()` is non-nil, which `hasRowData` records. -/
def TableModel.yankStep (s : YankState) (now : Nat) (hasRowData : Bool) : YankState × Bool :=
  let count := if now - s.yankLastTime < yankWindowMillis then s.yankCount + 1 else 1
  if count ≥ 2 then (⟨now, 0⟩, hasRowData)
  else (⟨now, count⟩, false)

/-- Embedding of the yank branch of `ViewportModel.Update`: the viewport
always emits `CopyDataMsg` on the double press. -/
def ViewportModel.yankStep (s : YankState) (now : Nat) : YankState × Bool :=
  let count := if now - s.yankLastTime < yankWindowMillis then s.yankCount + 1 else 1
  if count ≥ 2 then (⟨now, 0⟩, true)
  else (⟨now, count⟩, false)

/-! ## List search (`internal/tui/components/table.go` lines 307-410) -/

/-- The search-related state of `TableModel`: the rendered rows, the cursor
of the embedded bubbles table, and the search bookkeeping fields. -/
structure TableSearchState where
  rows : List (List String)
  cursor : Nat
  searchQuery : String
  searchIndex : Int
  searchCount : Nat
deriving DecidableEq, Repr

/-- Row predicate of the search loops: some rendered cell contains the
lowered query, case-insensitively. -/
def rowMatches (loweredQuery : String) (row : List String) : Bool :=
  row.any (fun cell => goContains (goToLower cell) loweredQuery)

/-- The indices of matching rows, in row order (the `matches` slice built by
`TableModel.Search`). -/
def matchIndices (loweredQuery : String) (rows : List (List String)) : List Nat :=
  (List.range rows.length).filter (fun i => rowMatches loweredQuery (rows.getD i []))

/-- Embedding of `TableModel.Search` (table.go lines 307-338). -/
def TableModel.Search (m : TableSearchState) (query : String) : TableSearchState :=
  if query == "" then
    { m with searchQuery := "", searchIndex := -1, searchCount := 0 }
  else
    let q := goToLower query
    let found := matchIndices q m.rows
    match found with
    | [] =>
      { m with searchQuery := query, searchCount := 0, searchIndex := -1 }
    | i :: rest =>
      { m with
        searchQuery := query
        searchCount := (i :: rest).length
        searchIndex := 0
        cursor := i }

/-- The forward scan of `NextSearchMatch` (`for i := currentIdx + 1; i <
len(m.rows); i++`): first matching row index at or after `i`. -/
def scanRowsFrom (q : String) (rows : List (List String)) (i : Nat) : Option Nat :=
  if h : i < rows.length then
    if rowMatches q (rows.getD i []) then some i
    else scanRowsFrom q rows (i + 1)
  else none
termination_by rows.length - i

/-- The wrap-around scan of `NextSearchMatch` (`for i := 0; i <= currentIdx;
i++`): first matching row index between `i` and `stop`.  The Go loop indexes
`m.rows[i]` directly, so `stop` is below `rows.length` whenever the loop
runs in a non-panicking execution; the extra bound check makes the model
total. -/
def scanRowsUpTo (q : String) (rows : List (List String)) (stop i : Nat) : Option Nat :=
  if i ≤ stop then
    if i < rows.length then
      if rowMatches q (rows.getD i []) then some i
      else scanRowsUpTo q rows stop (i + 1)
    else none
  else none
termination_by stop + 1 - i

/-- Embedding of `TableModel.NextSearchMatch` (table.go lines 341-372). -/
def TableModel.NextSearchMatch (m : TableSearchState) : TableSearchState :=
  if m.searchQuery == "" || m.searchCount == 0 then m
  else
    let q := goToLower m.searchQuery
    match scanRowsFrom q m.rows (m.cursor + 1) with
    | some i =>
      { m with cursor := i, searchIndex := (m.searchIndex + 1) % (m.searchCount : Int) }
    | none =>
      match scanRowsUpTo q m.rows m.cursor 0 with
      | some i => { m with cursor := i, searchIndex := 0 }
      | none => m

/-! ## The app shell and the region-selection handler
(`internal/tui/app.go` lines 336-380) -/

/-- The root `Model` fields the region-selection handler can touch.  The
page models and the client/service bundles are opaque handles: `0` stands
for a freshly constructed page model (`NewECSListModel()` and friends), and
distinct handles stand for distinct cached states. -/
structure AppModel where
  currentPage : PageType
  previousPages : List PageType
  profile : String
  region : String
  clients : Nat
  services : Nat
  modal : ModalModel
  ecsListPage : Nat
  sgListPage : Nat
  dnsDomainsPage : Nat
  slbListPage : Nat
  ossBucketsPage : Nat
  rdsListPage : Nat
  redisListPage : Nat
  rocketmqListPage : Nat
  otherPageState : Nat
deriving DecidableEq, Repr

/-- Embedding of `Model.clearCachedData` (app.go lines 1146-1156): the eight
cached list pages are reset to freshly constructed models. -/
def Model.clearCachedData (m : AppModel) : AppModel :=
  { m with
    ecsListPage := 0
    sgListPage := 0
    dnsDomainsPage := 0
    slbListPage := 0
    ossBucketsPage := 0
    rdsListPage := 0
    redisListPage := 0
    rocketmqListPage := 0 }

/-- Embedding of the `components.RegionSelectedMsg` case of `Model.Update`
(app.go lines 336-380).  `updateRegion` stands for the collaborator call
`m.clients.UpdateRegion` and yields the new client and service handles. -/
def Model.updateRegionSelected (updateRegion : String → Except String (Nat × Nat))
    (m : AppModel) (region : String) : AppModel :=
  if region == m.region then
    { m with modal := m.modal.Hide }
  else
    match updateRegion region with
    | .error e =>
      { m with modal := NewErrorModal ("Failed to create clients: " ++ e) }
    | .ok cs =>
      let m1 := Model.clearCachedData m
      { m1 with
        region := region
        clients := cs.1
        services := cs.2
        currentPage := .PageMenu
        previousPages := []
        modal := NewSuccessModal ("Switched to region: " ++ region) }

/-! ## Supporting definitions for statements and witnesses -/

/-- The DNS-record predicate actually applied by `matchDNSRecords`, read off
the three `if`/`continue` clauses of the record loop. -/
def dnsRecordPredicate (ips : List String) (domain : String) (zone : String)
    (r : DNSRecord) : Bool :=
  (r.rType == "A" && containsAny r.Value ips) ||
    (domain != "" && goContains (goToLower r.Value) (goToLower domain)) ||
    (domain != "" &&
      (goContains (goToLower (r.RR ++ "." ++ zone)) (goToLower domain) ||
        goContains (goToLower r.RR) (goToLower domain)))

/-- The DNS-record predicate as the claim words it: the value equals one of
the resolved IPs, or the value contains the domain as a substring, or the
fully-qualified name contains the domain as a substring. -/
def claimDNSRecordPred (ips : List String) (domain : String) (zone : String)
    (r : DNSRecord) : Bool :=
  ips.contains r.Value || goContains r.Value domain ||
    goContains (r.RR ++ "." ++ zone) domain

/-- A fetch-outcome bundle in which every collaborator call succeeds, used
to exercise the partial-failure theorem at a concrete input. -/
def fetchAllOk : FetchOutcomes where
  ecsFetch := .ok [⟨"i-1", ["10.0.0.5"], [], [], ""⟩]
  eniInstancesFetch := .ok [⟨"i-1", ["10.0.0.5"], [], [], ""⟩]
  eniFetch := fun _ => .ok [⟨"10.0.0.5", []⟩]
  slbFetch := .ok [⟨"10.0.0.5"⟩]
  dns := ⟨.ok [⟨"example.com"⟩], fun _ => .ok [⟨"db", "A", "10.0.0.5"⟩]⟩
  rdsFetch := .ok [⟨"db.example.com", "", "10.0.0.5", ""⟩]
  redisFetch := .ok [⟨"cache.example.com", "10.0.0.5"⟩]
  mqFetch := .ok [⟨"mq-db"⟩]

/-- Six rendered rows used to exercise the list search at a concrete input:
the query `xkey` matches exactly rows 2 and 5. -/
def searchDemoRows : List (List String) :=
  [["a0"], ["b1"], ["xkey2"], ["c3"], ["d4"], ["xkey5"]]

/-- A list-widget state over `searchDemoRows` with the cursor at the top and
no active search. -/
def searchDemoState : TableSearchState :=
  ⟨searchDemoRows, 0, "", -1, 0⟩

/-! # Theorems -/

/-! ## C1: resolving an IP literal -/

/-- C1 counterexample: the claim states that `ResolveToIPs` on the literal
IP `192.168.1.1` returns the pair with an empty domain; the code returns the
trimmed input itself as the domain (`return []string{input}, input, nil`),
so the resolved pair differs from the claimed `(["192.168.1.1"], "")` at
this concrete input. -/
theorem resolve_ip_echoes_input_as_domain :
    (ResolveToIPs goParseIPv4 ⟨.ok [], fun _ => .ok []⟩ (fun _ => .error "unreachable")
        "192.168.1.1").1.2 = "192.168.1.1" ∧
      (ResolveToIPs goParseIPv4 ⟨.ok [], fun _ => .ok []⟩ (fun _ => .error "unreachable")
          "192.168.1.1").1 ≠ (["192.168.1.1"], "") := by
  constructor
  · rfl
  · decide

/-- C1 (amended): for every input whose trimmed form parses as a literal IP
address, `ResolveToIPs` returns that IP unchanged as the sole resolved IP
and as the domain, and performs no Aliyun-DNS lookup and no system name
resolution (the effect log is empty), for every DNS oracle and system
resolver. -/
theorem resolve_ip_literal_identity (isIP : String → Bool) (o : DNSOracle)
    (sys : String → Except String (List String)) (input : String)
    (h : isIP (goTrimSpace input) = true) :
    ResolveToIPs isIP o sys input = (([goTrimSpace input], goTrimSpace input), []) := by
  simp [ResolveToIPs, h]

/-- C1 witness: the amended theorem applied to the literal `192.168.1.1`
with the IPv4 parser model and concrete oracles. -/
theorem resolve_ip_literal_identity_witness :
    goParseIPv4 (goTrimSpace "192.168.1.1") = true ∧
      ResolveToIPs goParseIPv4 ⟨.ok [], fun _ => .ok []⟩ (fun _ => .error "unreachable")
          "192.168.1.1"
        = (([goTrimSpace "192.168.1.1"], goTrimSpace "192.168.1.1"), []) :=
  ⟨by decide,
    resolve_ip_literal_identity goParseIPv4 ⟨.ok [], fun _ => .ok []⟩
      (fun _ => .error "unreachable") "192.168.1.1" (by decide)⟩

/-! ## C10: re-selecting the active region -/

/-- C10: handling a region-selection event whose chosen region equals the
currently active region only hides the modal; the current page, navigation
stack, profile, region, clients, services and every cached page state are
unchanged. -/
theorem region_reselect_only_hides_modal (upd : String → Except String (Nat × Nat))
    (m : AppModel) (r : String) (h : r = m.region) :
    (Model.updateRegionSelected upd m r).currentPage = m.currentPage ∧
      (Model.updateRegionSelected upd m r).previousPages = m.previousPages ∧
      (Model.updateRegionSelected upd m r).profile = m.profile ∧
      (Model.updateRegionSelected upd m r).region = m.region ∧
      (Model.updateRegionSelected upd m r).clients = m.clients ∧
      (Model.updateRegionSelected upd m r).services = m.services ∧
      (Model.updateRegionSelected upd m r).ecsListPage = m.ecsListPage ∧
      (Model.updateRegionSelected upd m r).sgListPage = m.sgListPage ∧
      (Model.updateRegionSelected upd m r).dnsDomainsPage = m.dnsDomainsPage ∧
      (Model.updateRegionSelected upd m r).slbListPage = m.slbListPage ∧
      (Model.updateRegionSelected upd m r).ossBucketsPage = m.ossBucketsPage ∧
      (Model.updateRegionSelected upd m r).rdsListPage = m.rdsListPage ∧
      (Model.updateRegionSelected upd m r).redisListPage = m.redisListPage ∧
      (Model.updateRegionSelected upd m r).rocketmqListPage = m.rocketmqListPage ∧
      (Model.updateRegionSelected upd m r).otherPageState = m.otherPageState ∧
      (Model.updateRegionSelected upd m r).modal = m.modal.Hide := by
  subst h
  simp [Model.updateRegionSelected]

/-- C10 witness: the theorem applied to a concrete model re-selecting its
own region. -/
theorem region_reselect_only_hides_modal_witness :
    (Model.updateRegionSelected (fun _ => .error "unreachable")
        { currentPage := .PageECSList, previousPages := [.PageMenu], profile := "default",
          region := "cn-hangzhou", clients := 7, services := 8,
          modal := NewSuccessModal "ok", ecsListPage := 1, sgListPage := 2,
          dnsDomainsPage := 3, slbListPage := 4, ossBucketsPage := 5, rdsListPage := 6,
          redisListPage := 7, rocketmqListPage := 8, otherPageState := 9 }
        "cn-hangzhou").currentPage = PageType.PageECSList ∧
      (Model.updateRegionSelected (fun _ => .error "unreachable")
          { currentPage := .PageECSList, previousPages := [.PageMenu], profile := "default",
            region := "cn-hangzhou", clients := 7, services := 8,
            modal := NewSuccessModal "ok", ecsListPage := 1, sgListPage := 2,
            dnsDomainsPage := 3, slbListPage := 4, ossBucketsPage := 5, rdsListPage := 6,
            redisListPage := 7, rocketmqListPage := 8, otherPageState := 9 }
          "cn-hangzhou").ecsListPage = 1 :=
  ⟨(region_reselect_only_hides_modal _ _ _ rfl).1,
    (region_reselect_only_hides_modal _ _ _ rfl).2.2.2.2.2.2.1⟩

/-! ## C4: the yank (double-press copy) gesture -/

/-- C4: in both the table and the viewport, a yank press whose gap from the
previous press exceeds the 500 ms window resets the counter to 1 and emits
nothing; a second press inside the window emits exactly one copy event and
resets the counter to 0; and two presses 600 ms apart emit no copy event up
to and including the second press. -/
theorem yank_gesture_behavior :
    (∀ (s : YankState) (now : Nat) (d : Bool), 500 < now - s.yankLastTime →
      TableModel.yankStep s now d = (⟨now, 1⟩, false) ∧
        ViewportModel.yankStep s now = (⟨now, 1⟩, false)) ∧
    (∀ (s : YankState) (now : Nat), s.yankCount = 1 → now - s.yankLastTime < 500 →
      TableModel.yankStep s now true = (⟨now, 0⟩, true) ∧
        ViewportModel.yankStep s now = (⟨now, 0⟩, true)) ∧
    (∀ (s : YankState) (t1 t2 : Nat) (d1 d2 : Bool),
      500 < t1 - s.yankLastTime → t2 - t1 = 600 →
      (TableModel.yankStep s t1 d1).2 = false ∧
        (TableModel.yankStep (TableModel.yankStep s t1 d1).1 t2 d2).2 = false ∧
        (ViewportModel.yankStep s t1).2 = false ∧
        (ViewportModel.yankStep (ViewportModel.yankStep s t1).1 t2).2 = false) := by
  refine ⟨?_, ?_, ?_⟩
  · intro s now d h
    have hx : ¬(now - s.yankLastTime < yankWindowMillis) := by
      unfold yankWindowMillis; omega
    constructor <;> simp [TableModel.yankStep, ViewportModel.yankStep, hx]
  · intro s now hc h
    have hx : now - s.yankLastTime < yankWindowMillis := by
      unfold yankWindowMillis; omega
    constructor <;> simp [TableModel.yankStep, ViewportModel.yankStep, hx, hc]
  · intro s t1 t2 d1 d2 h1 h2
    have hx1 : ¬(t1 - s.yankLastTime < yankWindowMillis) := by
      unfold yankWindowMillis; omega
    have hfirstT : TableModel.yankStep s t1 d1 = (⟨t1, 1⟩, false) := by
      simp [TableModel.yankStep, hx1]
    have hfirstV : ViewportModel.yankStep s t1 = (⟨t1, 1⟩, false) := by
      simp [ViewportModel.yankStep, hx1]
    have hx2 : ¬(t2 - t1 < yankWindowMillis) := by
      unfold yankWindowMillis; omega
    refine ⟨by rw [hfirstT], ?_, by rw [hfirstV], ?_⟩
    · rw [hfirstT]
      simp [TableModel.yankStep, hx2]
    · rw [hfirstV]
      simp [ViewportModel.yankStep, hx2]

/-- C4 witness: the theorem applied at concrete press times (press at 501 in
a fresh widget; a second press at 801 inside the window; two presses 600 ms
apart). -/
theorem yank_gesture_behavior_witness :
    TableModel.yankStep ⟨0, 0⟩ 501 true = (⟨501, 1⟩, false) ∧
      TableModel.yankStep ⟨501, 1⟩ 801 true = (⟨801, 0⟩, true) ∧
      (TableModel.yankStep (TableModel.yankStep ⟨0, 0⟩ 501 true).1 1101 true).2 = false :=
  ⟨(yank_gesture_behavior.1 ⟨0, 0⟩ 501 true (by decide)).1,
    (yank_gesture_behavior.2.1 ⟨501, 1⟩ 801 rfl (by decide)).1,
    (yank_gesture_behavior.2.2 ⟨0, 0⟩ 501 1101 true true (by decide) (by decide)).2.1⟩

/-! ## C3: navigation stack -/

/-- Running a concatenation of event lists runs them in sequence. -/
theorem navRun_append (m : NavState) (l1 l2 : List NavEvent) :
    navRun m (l1 ++ l2) = navRun (navRun m l1) l2 :=
  List.foldl_append navStep m l1 l2

/-- Popping after a push with the pushed entry still on top restores the
pre-push state components. -/
theorem navigateBack_concat (c x : PageType) (xs : List PageType) :
    NavState.navigateBack ⟨c, xs ++ [x]⟩ = ⟨x, xs⟩ := by
  unfold NavState.navigateBack
  simp [List.getLastD_concat, List.dropLast_concat]

/-- A balanced event sequence never touches the part of the stack below its
starting point: the stack after running it equals the starting stack. -/
theorem balancedNav_preserves_stack {evs : List NavEvent} (h : BalancedNav evs) :
    ∀ m : NavState, (navRun m evs).previousPages = m.previousPages := by
  induction h with
  | nil => intro m; rfl
  | append h1 h2 ih1 ih2 =>
    intro m
    rw [navRun_append, ih2, ih1]
  | @bracket p l h ih =>
    intro m
    have h1 : NavEvent.nav p :: l ++ [NavEvent.back]
        = (NavEvent.nav p :: l) ++ [NavEvent.back] := rfl
    rw [h1, navRun_append]
    have hstep : navRun m (NavEvent.nav p :: l) = navRun (m.navigateTo p) l := rfl
    rw [hstep]
    have hstack := ih (m.navigateTo p)
    rcases hs : navRun (m.navigateTo p) l with ⟨c2, st⟩
    rw [hs] at hstack
    simp only [NavState.navigateTo] at hstack
    show (NavState.navigateBack ⟨c2, st⟩).previousPages = m.previousPages
    rw [hstack, navigateBack_concat]

/-- C3: every back request whose matching navigate request brackets a
balanced sub-sequence restores exactly the page that was current immediately
before that navigate request, with the stack restored as well (LIFO, no
skipping); a back request on an empty stack changes nothing; and the
concrete sequence navigate A, navigate B, back, back returns to the initial
state, a third back being a no-op. -/
theorem navigation_stack_lifo :
    (∀ (m : NavState) (p : PageType) (evs : List NavEvent), BalancedNav evs →
      navRun m (NavEvent.nav p :: evs ++ [NavEvent.back]) = m) ∧
    (∀ m : NavState, m.previousPages = [] → m.navigateBack = m) ∧
    (∀ a b : PageType,
      navRun initialNavState [.nav a, .nav b, .back, .back] = initialNavState ∧
        (navRun initialNavState [.nav a, .nav b, .back, .back]).navigateBack
          = navRun initialNavState [.nav a, .nav b, .back, .back]) := by
  have hbracket : ∀ (m : NavState) (p : PageType) (evs : List NavEvent), BalancedNav evs →
      navRun m (NavEvent.nav p :: evs ++ [NavEvent.back]) = m := by
    intro m p evs h
    have h1 : NavEvent.nav p :: evs ++ [NavEvent.back]
        = (NavEvent.nav p :: evs) ++ [NavEvent.back] := rfl
    rw [h1, navRun_append]
    have hstep : navRun m (NavEvent.nav p :: evs) = navRun (m.navigateTo p) evs := rfl
    rw [hstep]
    have hstack := balancedNav_preserves_stack h (m.navigateTo p)
    rcases hs : navRun (m.navigateTo p) evs with ⟨c2, st⟩
    rw [hs] at hstack
    simp only [NavState.navigateTo] at hstack
    show NavState.navigateBack ⟨c2, st⟩ = m
    rw [hstack, navigateBack_concat]
  have hempty : ∀ m : NavState, m.previousPages = [] → m.navigateBack = m := by
    intro m h
    unfold NavState.navigateBack
    rw [h]
    rfl
  refine ⟨hbracket, hempty, ?_⟩
  intro a b
  have hinner : BalancedNav [NavEvent.nav b, NavEvent.back] :=
    BalancedNav.bracket b BalancedNav.nil
  have h1 : navRun initialNavState [.nav a, .nav b, .back, .back] = initialNavState := by
    have := hbracket initialNavState a [NavEvent.nav b, NavEvent.back] hinner
    simpa using this
  refine ⟨h1, ?_⟩
  rw [h1]
  exact hempty initialNavState rfl

/-- C3 witness: the bracketing theorem applied at the concrete sequence
navigate to the ECS list, navigate to the ECS detail, back, back. -/
theorem navigation_stack_lifo_witness :
    navRun ⟨.PageMenu, []⟩
        [.nav .PageECSList, .nav .PageECSDetail, .back, .back] = ⟨.PageMenu, []⟩ ∧
      NavState.navigateBack ⟨.PageMenu, []⟩ = ⟨.PageMenu, []⟩ :=
  ⟨by
    have := navigation_stack_lifo.1 ⟨.PageMenu, []⟩ .PageECSList
      [NavEvent.nav .PageECSDetail, NavEvent.back]
      (BalancedNav.bracket .PageECSDetail BalancedNav.nil)
    simpa using this,
    navigation_stack_lifo.2.1 ⟨.PageMenu, []⟩ rfl⟩

/-! ## C6: modal exit keys -/

/-- C6 counterexample: the claim states that pressing `q` exits a visible
Error modal; in the code the Info/Error/Success dismiss branch matches only
the Enter, Escape and Space key types, so a `q` rune leaves the Error modal
visible and emits nothing. -/
theorem modal_q_on_error_modal_ignored :
    ModalModel.Update (NewErrorModal "boom") (.char 'q') = (NewErrorModal "boom", none) ∧
      (NewErrorModal "boom").Visible = true := by
  constructor <;> rfl

/-- C6 (amended): for every visible modal, Enter exits Info/Error/Success/
Confirm directly, exits the Profile/Region select variants when an item is
selected and the list is not filtering, and exits the Input variant exactly
when the text is non-empty; Escape exits every variant (select variants
when not filtering); and `q` exits when and only when the variant is
ProfileSelect or RegionSelect — on Info/Error/Success it is ignored and on
Input it is typed into the field. -/
theorem modal_exit_keys (m : ModalModel) (hv : m.Visible = true) :
    ((m.modalType = .info ∨ m.modalType = .error ∨ m.modalType = .success ∨
        m.modalType = .confirm) →
      ModalModel.Update m .enter = (m.Hide, some .modalDismissed) ∧
        ModalModel.Update m .esc = (m.Hide, some .modalDismissed) ∧
        ModalModel.Update m (.char 'q') = (m, none)) ∧
    (m.modalType = .profileSelect → m.profileList.filtering = false →
      ModalModel.Update m (.char 'q') = (m.Hide, some .modalDismissed) ∧
        ModalModel.Update m .esc = (m.Hide, some .modalDismissed) ∧
        ∀ p, m.profileList.selectedItem = some p →
          ModalModel.Update m .enter = (m.Hide, some (.profileSelected p))) ∧
    (m.modalType = .regionSelect → (m.regionsLoading = true ∨ m.regionList.filtering = false) →
      ModalModel.Update m (.char 'q') = (m.Hide, some .modalDismissed) ∧
        ModalModel.Update m .esc = (m.Hide, some .modalDismissed) ∧
        (m.regionsLoading = false →
          ∀ r, m.regionList.selectedItem = some r →
            ModalModel.Update m .enter = (m.Hide, some (.regionSelected r)))) ∧
    (m.modalType = .input →
      ModalModel.Update m .esc
          = ({ m with Visible := false, historyIndex := -1 }, some .modalDismissed) ∧
        (m.inputValue ≠ "" →
          ModalModel.Update m .enter
            = ({ m with Visible := false, historyIndex := -1 },
                some (.inputSubmitted m.inputValue))) ∧
        ModalModel.Update m (.char 'q')
          = ({ m with inputValue := m.inputValue.push 'q' }, none)) := by
  refine ⟨?_, ?_, ?_, ?_⟩
  · rintro (ht | ht | ht | ht) <;>
      exact ⟨by simp [ModalModel.Update, updateDismissArm, updateProfileArm, updateRegionArm, updateRegionLoadingArm, updateRegionLoadedArm, updateInputArm, ModalModel.Hide, hv, ht],
        by simp [ModalModel.Update, updateDismissArm, updateProfileArm, updateRegionArm, updateRegionLoadingArm, updateRegionLoadedArm, updateInputArm, ModalModel.Hide, hv, ht],
        by simp [ModalModel.Update, updateDismissArm, updateProfileArm, updateRegionArm, updateRegionLoadingArm, updateRegionLoadedArm, updateInputArm, hv, ht]⟩
  · intro ht hf
    refine ⟨by simp [ModalModel.Update, updateDismissArm, updateProfileArm, updateRegionArm, updateRegionLoadingArm, updateRegionLoadedArm, updateInputArm, ModalModel.Hide, hv, ht, hf], ?_, ?_⟩
    · simp [ModalModel.Update, updateDismissArm, updateProfileArm, updateRegionArm, updateRegionLoadingArm, updateRegionLoadedArm, updateInputArm, ModalModel.Hide, hv, ht, hf]
    · intro p hp
      simp [ModalModel.Update, updateDismissArm, updateProfileArm, updateRegionArm, updateRegionLoadingArm, updateRegionLoadedArm, updateInputArm, ModalModel.Hide, hv, ht, hf, hp]
  · intro ht hlf
    rcases hl : m.regionsLoading with _ | _
    · have hf : m.regionList.filtering = false := by
        rcases hlf with h | h
        · rw [hl] at h; exact absurd h (by simp)
        · exact h
      refine ⟨by simp [ModalModel.Update, updateDismissArm, updateProfileArm, updateRegionArm, updateRegionLoadingArm, updateRegionLoadedArm, updateInputArm, ModalModel.Hide, hv, ht, hl, hf], ?_, ?_⟩
      · simp [ModalModel.Update, updateDismissArm, updateProfileArm, updateRegionArm, updateRegionLoadingArm, updateRegionLoadedArm, updateInputArm, ModalModel.Hide, hv, ht, hl, hf]
      · intro _ r hr
        simp [ModalModel.Update, updateDismissArm, updateProfileArm, updateRegionArm, updateRegionLoadingArm, updateRegionLoadedArm, updateInputArm, ModalModel.Hide, hv, ht, hl, hf, hr]
    · refine ⟨by simp [ModalModel.Update, updateDismissArm, updateProfileArm, updateRegionArm, updateRegionLoadingArm, updateRegionLoadedArm, updateInputArm, ModalModel.Hide, hv, ht, hl], ?_, ?_⟩
      · simp [ModalModel.Update, updateDismissArm, updateProfileArm, updateRegionArm, updateRegionLoadingArm, updateRegionLoadedArm, updateInputArm, ModalModel.Hide, hv, ht, hl]
      · intro h
        simp at h
  · intro ht
    refine ⟨by simp [ModalModel.Update, updateDismissArm, updateProfileArm, updateRegionArm, updateRegionLoadingArm, updateRegionLoadedArm, updateInputArm, hv, ht], ?_, ?_⟩
    · intro hval
      simp [ModalModel.Update, updateDismissArm, updateProfileArm, updateRegionArm, updateRegionLoadingArm, updateRegionLoadedArm, updateInputArm, hv, ht, hval]
    · simp [ModalModel.Update, updateDismissArm, updateProfileArm, updateRegionArm, updateRegionLoadingArm, updateRegionLoadedArm, updateInputArm, hv, ht, feedInputKey]

/-- C6 witness: the amended theorem applied to a concrete Error modal
(Enter dismisses, q is ignored) and to a concrete profile-selection modal
(q dismisses). -/
theorem modal_exit_keys_witness :
    ModalModel.Update (NewErrorModal "x") .enter
        = ((NewErrorModal "x").Hide, some .modalDismissed) ∧
      ModalModel.Update (NewErrorModal "x") (.char 'q') = (NewErrorModal "x", none) ∧
      ModalModel.Update (NewProfileSelectionModal ["default"] "default") (.char 'q')
        = ((NewProfileSelectionModal ["default"] "default").Hide, some .modalDismissed) :=
  ⟨((modal_exit_keys (NewErrorModal "x") rfl).1 (Or.inr (Or.inl rfl))).1,
    ((modal_exit_keys (NewErrorModal "x") rfl).1 (Or.inr (Or.inl rfl))).2.2,
    ((modal_exit_keys (NewProfileSelectionModal ["default"] "default") rfl).2.1 rfl rfl).1⟩

/-! ## C7: input-modal history navigation -/

/-- C7: in a visible Input modal with a non-empty history, the first Ctrl-P
saves the in-progress text and shows the most recent entry (index 0);
further Ctrl-P presses walk backward while entries remain; Ctrl-N walks
forward; and Ctrl-N from the most recent entry restores the saved
in-progress text.  The concrete conjunct runs the history produced by
submitting "a" then "b" with in-progress text "x": Ctrl-P, Ctrl-P, Ctrl-N,
Ctrl-N show "b", "a", "b", "x". -/
theorem input_modal_history_navigation :
    (∀ m : ModalModel, m.modalType = .input → m.Visible = true → m.inputHistory ≠ [] →
      m.historyIndex = -1 →
      ModalModel.Update m .ctrlP =
        ({ m with
            currentInput := m.inputValue
            historyIndex := 0
            inputValue := m.inputHistory.getD 0 "" }, none)) ∧
    (∀ (m : ModalModel) (i : Nat), m.modalType = .input → m.Visible = true →
      m.historyIndex = (i : Int) → i + 1 < m.inputHistory.length →
      ModalModel.Update m .ctrlP =
        ({ m with
            historyIndex := (i : Int) + 1
            inputValue := m.inputHistory.getD (i + 1) "" }, none)) ∧
    (∀ (m : ModalModel) (i : Nat), m.modalType = .input → m.Visible = true →
      m.historyIndex = (i : Int) → 0 < i →
      ModalModel.Update m .ctrlN =
        ({ m with
            historyIndex := (i : Int) - 1
            inputValue := m.inputHistory.getD (i - 1) "" }, none)) ∧
    (∀ m : ModalModel, m.modalType = .input → m.Visible = true → m.historyIndex = 0 →
      ModalModel.Update m .ctrlN =
        ({ m with historyIndex := -1, inputValue := m.currentInput }, none)) ∧
    (let hs := submitToHistory "b" (submitToHistory "a" [])
     let m0 := { NewInputModalWithHistory "Find" "Query" hs with inputValue := "x" }
     let p1 := (ModalModel.Update m0 .ctrlP).1
     let p2 := (ModalModel.Update p1 .ctrlP).1
     let n1 := (ModalModel.Update p2 .ctrlN).1
     let n2 := (ModalModel.Update n1 .ctrlN).1
     p1.inputValue = "b" ∧ p2.inputValue = "a" ∧ n1.inputValue = "b" ∧ n2.inputValue = "x") := by
  refine ⟨?_, ?_, ?_, ?_, ?_⟩
  · intro m ht hv hne hidx
    have hlen : 0 < m.inputHistory.length := List.length_pos.mpr hne
    simp [ModalModel.Update, updateInputArm, ht, hv, hidx, hlen]
  · intro m i ht hv hidx hlt
    have hlen : 0 < m.inputHistory.length := by omega
    have hne : ((i : Int) == -1) = false := by
      simp only [beq_eq_false_iff_ne, ne_eq]
      omega
    have hcond : (i : Int) < (m.inputHistory.length : Int) - 1 := by omega
    have htn : ((i : Int) + 1).toNat = i + 1 := by omega
    simp [ModalModel.Update, updateInputArm, ht, hv, hidx, hlen, hne, hcond, htn]
  · intro m i ht hv hidx hpos
    have hgt : (0 : Int) < (i : Int) := by omega
    have htn : ((i : Int) - 1).toNat = i - 1 := by omega
    simp [ModalModel.Update, updateInputArm, ht, hv, hidx, hgt, htn]
  · intro m ht hv hidx
    simp [ModalModel.Update, updateInputArm, ht, hv, hidx]
  · decide

/-- C7 witness: the first-step part of the theorem applied to a concrete
input modal with history ["b", "a"] and in-progress text "x". -/
theorem input_modal_history_navigation_witness :
    ModalModel.Update
        { NewInputModalWithHistory "Find" "Query" ["b", "a"] with inputValue := "x" } .ctrlP =
      ({ { NewInputModalWithHistory "Find" "Query" ["b", "a"] with inputValue := "x" } with
          currentInput := "x"
          historyIndex := 0
          inputValue := (["b", "a"] : List String).getD 0 "" }, none) :=
  input_modal_history_navigation.1
    { NewInputModalWithHistory "Find" "Query" ["b", "a"] with inputValue := "x" }
    rfl rfl (by decide) rfl

/-! ## C8: empty input submission rejected -/

/-- The Info/Error/Success/Confirm arm never emits a submission message. -/
theorem updateDismissArm_no_submit (m : ModalModel) (k : ModalKey) (v : String) :
    (updateDismissArm m k).2 ≠ some (.inputSubmitted v) := by
  cases k <;> simp [updateDismissArm]

/-- The ProfileSelect arm never emits a submission message. -/
theorem updateProfileArm_no_submit (m : ModalModel) (k : ModalKey) (v : String) :
    (updateProfileArm m k).2 ≠ some (.inputSubmitted v) := by
  unfold updateProfileArm
  split
  · simp
  · cases k <;> simp
    · cases m.profileList.selectedItem <;> simp
    · split <;> simp

/-- The RegionSelect arm never emits a submission message. -/
theorem updateRegionArm_no_submit (m : ModalModel) (k : ModalKey) (v : String) :
    (updateRegionArm m k).2 ≠ some (.inputSubmitted v) := by
  unfold updateRegionArm
  split
  · unfold updateRegionLoadingArm
    cases k <;> simp
    split <;> simp
  · unfold updateRegionLoadedArm
    split
    · simp
    · cases k <;> simp
      · cases m.regionList.selectedItem <;> simp
      · split <;> simp

/-- An emitted submission message comes from the Enter branch of the Input
arm and carries the non-empty text. -/
theorem updateInputArm_submit (m : ModalModel) (k : ModalKey) (v : String)
    (h : (updateInputArm m k).2 = some (.inputSubmitted v)) :
    m.inputValue ≠ "" ∧ v = m.inputValue := by
  cases k
  case enter =>
    simp only [updateInputArm] at h
    split at h <;> simp [feedInputKey] at h
    refine ⟨?_, h.symm⟩
    simp_all
  case esc => simp [updateInputArm] at h
  case space => simp [updateInputArm, feedInputKey] at h
  case ctrlP =>
    simp only [updateInputArm] at h
    split at h <;> (try split at h) <;> simp at h
  case ctrlN =>
    simp only [updateInputArm] at h
    split at h <;> (try split at h) <;> simp at h
  case char c => simp [updateInputArm, feedInputKey] at h

/-- C8: pressing Enter in a visible Input modal whose text is empty emits no
message and leaves the modal state unchanged (the key falls through to the
text input, which ignores Enter); and a submission message is emitted, by
any key in any modal, only when the Input text is non-empty and carries
exactly that text. -/
theorem input_modal_empty_submit_rejected :
    (∀ m : ModalModel, m.modalType = .input → m.Visible = true → m.inputValue = "" →
      ModalModel.Update m .enter = (m, none)) ∧
    (∀ (m : ModalModel) (k : ModalKey) (v : String),
      (ModalModel.Update m k).2 = some (.inputSubmitted v) →
        m.inputValue ≠ "" ∧ v = m.inputValue) := by
  constructor
  · intro m ht hv hval
    simp [ModalModel.Update, updateInputArm, feedInputKey, ht, hv, hval]
  · intro m k v h
    by_cases hvis : m.Visible
    · rw [show ModalModel.Update m k
          = if !m.Visible then (m, none)
            else match m.modalType with
              | .profileSelect => updateProfileArm m k
              | .regionSelect => updateRegionArm m k
              | .input => updateInputArm m k
              | _ => updateDismissArm m k from rfl] at h
      rw [hvis] at h
      simp only [Bool.not_true, Bool.false_eq_true, if_false, ite_false] at h
      cases hm : m.modalType <;> rw [hm] at h
      · exact absurd h (updateDismissArm_no_submit m k v)
      · exact absurd h (updateDismissArm_no_submit m k v)
      · exact absurd h (updateDismissArm_no_submit m k v)
      · exact absurd h (updateDismissArm_no_submit m k v)
      · exact absurd h (updateProfileArm_no_submit m k v)
      · exact absurd h (updateRegionArm_no_submit m k v)
      · exact updateInputArm_submit m k v h
    · simp [ModalModel.Update, hvis] at h

/-- C8 witness: the theorem applied to a concrete empty input modal. -/
theorem input_modal_empty_submit_rejected_witness :
    ModalModel.Update (NewInputModalWithHistory "Find" "Query" ["old"]) .enter
      = (NewInputModalWithHistory "Find" "Query" ["old"], none) :=
  input_modal_empty_submit_rejected.1 (NewInputModalWithHistory "Find" "Query" ["old"])
    rfl rfl rfl

/-! ## C2: one failing category in the fan-out -/

/-- C2: when all collaborator fetches succeed except the primary fetch of
exactly one category, the fan-out aggregate equals the all-success aggregate
with that category emptied, the failing category sequence has length zero,
the operation still returns without error, and `TotalCount` equals the sum
of the successful category lengths only. -/
theorem findResources_partial_failure (ips : List String) (domain : String)
    (f : FetchOutcomes) (c : Category) (hok : ∀ c2, primaryOk f c2 = true) :
    FindResources ips domain (failOne c f) = eraseCat c (FindResources ips domain f) ∧
      catLen (FindResources ips domain (failOne c f)) c = 0 ∧
      FindResourcesE ips domain (failOne c f)
        = .ok (FindResources ips domain (failOne c f)) ∧
      (FindResources ips domain (failOne c f)).TotalCount
        = ((allCategories.filter (fun c2 => !(c2 == c))).map
            (catLen (FindResources ips domain f))).sum := by
  refine ⟨?_, ?_, rfl, ?_⟩
  · cases c <;> rfl
  · cases c <;> rfl
  · cases c <;>
      simp [FindResources, failOne, FindResult.TotalCount, catLen, allCategories,
        matchDNSRecords, fetchAllENIs, List.filter, List.map, List.sum_cons,
        List.sum_nil] <;>
      omega

/-- C2 witness: the theorem applied to a concrete all-success fetch bundle
with the SLB category forced to fail. -/
theorem findResources_partial_failure_witness :
    (∀ c2, primaryOk fetchAllOk c2 = true) ∧
      FindResources ["10.0.0.5"] "db" (failOne .slb fetchAllOk)
        = eraseCat .slb (FindResources ["10.0.0.5"] "db" fetchAllOk) :=
  ⟨fun c2 => by cases c2 <;> rfl,
    (findResources_partial_failure ["10.0.0.5"] "db" fetchAllOk .slb
      (fun c2 => by cases c2 <;> rfl)).1⟩

/-! ## C9: the DNS-record predicate -/

/-- The record loop of `matchDNSRecords` keeps exactly the records selected
by `dnsRecordPredicate`, tagged with their zone. -/
theorem matchRecordsInZone_eq_filterMap (ips : List String) (domain zone : String)
    (rs : List DNSRecord) :
    matchRecordsInZone ips domain zone rs
      = (rs.filter (dnsRecordPredicate ips domain zone)).map
          (fun r => DNSRecordMatch.mk zone r) := by
  induction rs with
  | nil => rfl
  | cons r rest ih =>
    simp only [matchRecordsInZone, List.filter_cons]
    split_ifs <;> simp_all [dnsRecordPredicate] <;> aesop

/-- Membership in the record loop output, characterized by the predicate. -/
theorem matchRecordsInZone_mem (ips : List String) (domain zone : String)
    (rs : List DNSRecord) (mr : DNSRecordMatch) :
    mr ∈ matchRecordsInZone ips domain zone rs ↔
      mr.DomainName = zone ∧ mr.Record ∈ rs ∧
        dnsRecordPredicate ips domain zone mr.Record = true := by
  rw [matchRecordsInZone_eq_filterMap]
  simp only [List.mem_map, List.mem_filter]
  constructor
  · rintro ⟨r, ⟨hr, hp⟩, rfl⟩
    exact ⟨rfl, hr, hp⟩
  · rintro ⟨hname, hr, hp⟩
    refine ⟨mr.Record, ⟨hr, hp⟩, ?_⟩
    cases mr
    simp_all

/-- Membership in the zone loop output: some fetched zone contributed the
record and the predicate selected it; zones whose record fetch failed
contribute nothing. -/
theorem matchDomainsLoop_mem (o : DNSOracle) (ips : List String) (domain : String)
    (ds : List DNSDomain) (mr : DNSRecordMatch) :
    mr ∈ matchDomainsLoop o ips domain ds ↔
      ∃ d ∈ ds, mr.DomainName = d.DomainName ∧
        ∃ rs, o.FetchDomainRecords d.DomainName = .ok rs ∧ mr.Record ∈ rs ∧
          dnsRecordPredicate ips domain d.DomainName mr.Record = true := by
  induction ds with
  | nil => simp [matchDomainsLoop]
  | cons d ds ih =>
    simp only [matchDomainsLoop, List.mem_append, ih, List.mem_cons]
    cases hfd : o.FetchDomainRecords d.DomainName with
    | error e =>
      simp only [List.not_mem_nil, false_or]
      constructor
      · rintro ⟨d2, hd2, rest⟩
        exact ⟨d2, Or.inr hd2, rest⟩
      · rintro ⟨d2, hd2 | hd2, hname, rs, hrs, rest⟩
        · subst hd2
          rw [hfd] at hrs
          cases hrs
        · exact ⟨d2, hd2, hname, rs, hrs, rest⟩
    | ok rs0 =>
      rw [matchRecordsInZone_mem]
      constructor
      · rintro (⟨hname, hmem, hp⟩ | ⟨d2, hd2, rest⟩)
        · exact ⟨d, Or.inl rfl, hname, rs0, hfd, hmem, hp⟩
        · exact ⟨d2, Or.inr hd2, rest⟩
      · rintro ⟨d2, hd2 | hd2, hname, rs, hrs, hmem, hp⟩
        · subst hd2
          rw [hfd] at hrs
          cases hrs
          exact Or.inl ⟨hname, hmem, hp⟩
        · exact Or.inr ⟨d2, hd2, hname, rs, hrs, hmem, hp⟩

/-- C9 counterexample: the claim describes the predicate as value-equality
against the resolved IPs (or domain containment); the code instead matches
A records whose value merely contains an IP as a substring.  The record with
value `10.0.0.11` is matched for the resolved IP `10.0.0.1` although the
claimed predicate rejects it. -/
theorem dns_predicate_claim_mismatch :
    matchRecordsInZone ["10.0.0.1"] "zzz" "example.com" [⟨"www", "A", "10.0.0.11"⟩]
        = [⟨"example.com", ⟨"www", "A", "10.0.0.11"⟩⟩] ∧
      claimDNSRecordPred ["10.0.0.1"] "zzz" "example.com" ⟨"www", "A", "10.0.0.11"⟩
        = false := by
  constructor <;> rfl

/-- C9 (amended): a fetched DNS record is matched exactly when it is an `A`
record whose value contains one of the non-empty resolved IPs as a
case-insensitive substring, or the domain is non-empty and the record value,
its fully-qualified name `RR.zone`, or its RR contains the domain
case-insensitively — `dnsRecordPredicate` spells out these clauses, and
matching over all zones ranges over the zones whose record fetch
succeeded. -/
theorem matchDNSRecords_match_iff_predicate :
    (∀ (ips : List String) (domain zone : String) (rs : List DNSRecord)
        (mr : DNSRecordMatch),
      mr ∈ matchRecordsInZone ips domain zone rs ↔
        mr.DomainName = zone ∧ mr.Record ∈ rs ∧
          dnsRecordPredicate ips domain zone mr.Record = true) ∧
    (∀ (o : DNSOracle) (ips : List String) (domain : String) (ds : List DNSDomain),
      o.FetchDomains = .ok ds →
      ∀ mr : DNSRecordMatch,
        matchDNSRecords o ips domain = .ok (matchDomainsLoop o ips domain ds) ∧
          (mr ∈ matchDomainsLoop o ips domain ds ↔
            ∃ d ∈ ds, mr.DomainName = d.DomainName ∧
              ∃ rs, o.FetchDomainRecords d.DomainName = .ok rs ∧ mr.Record ∈ rs ∧
                dnsRecordPredicate ips domain d.DomainName mr.Record = true)) := by
  refine ⟨matchRecordsInZone_mem, ?_⟩
  intro o ips domain ds hfd mr
  exact ⟨by simp [matchDNSRecords, hfd], matchDomainsLoop_mem o ips domain ds mr⟩

/-- C9 witness: the amended theorem applied to a concrete oracle with one
zone and one A record. -/
theorem matchDNSRecords_match_iff_predicate_witness :
    matchDNSRecords ⟨.ok [⟨"example.com"⟩], fun _ => .ok [⟨"www", "A", "10.0.0.11"⟩]⟩
        ["10.0.0.1"] "zzz"
      = .ok (matchDomainsLoop
          ⟨.ok [⟨"example.com"⟩], fun _ => .ok [⟨"www", "A", "10.0.0.11"⟩]⟩
          ["10.0.0.1"] "zzz" [⟨"example.com"⟩]) :=
  (matchDNSRecords_match_iff_predicate.2
    ⟨.ok [⟨"example.com"⟩], fun _ => .ok [⟨"www", "A", "10.0.0.11"⟩]⟩
    ["10.0.0.1"] "zzz" [⟨"example.com"⟩] rfl
    ⟨"example.com", ⟨"www", "A", "10.0.0.11"⟩⟩).1

/-! ## C5: list search and circular match cycling -/

/-- A row index is recorded as a match exactly when it is in range and some
cell of that row contains the lowered query. -/
theorem matchIndices_mem (q : String) (rows : List (List String)) (j : Nat) :
    j ∈ matchIndices q rows ↔ j < rows.length ∧ rowMatches q (rows.getD j []) = true := by
  simp [matchIndices, List.mem_filter, List.mem_range]

/-- The recorded match indices are strictly increasing. -/
theorem matchIndices_pairwise (q : String) (rows : List (List String)) :
    (matchIndices q rows).Pairwise (· < ·) :=
  List.Pairwise.filter _ (List.pairwise_lt_range rows.length)

/-- Positions in the match list translate to strictly ordered row indices. -/
theorem matchIndices_get_lt (q : String) (rows : List (List String))
    (u v : Fin (matchIndices q rows).length) (huv : u < v) :
    (matchIndices q rows).get u < (matchIndices q rows).get v :=
  List.pairwise_iff_get.mp (matchIndices_pairwise q rows) u v huv

/-- Positions in the match list translate to ordered row indices. -/
theorem matchIndices_get_le (q : String) (rows : List (List String))
    (u v : Fin (matchIndices q rows).length) (huv : (u : Nat) ≤ (v : Nat)) :
    (matchIndices q rows).get u ≤ (matchIndices q rows).get v := by
  rcases Nat.lt_or_ge (u : Nat) (v : Nat) with h | h
  · exact Nat.le_of_lt (matchIndices_get_lt q rows u v (Fin.mk_lt_mk.mpr h))
  · have : (u : Nat) = (v : Nat) := by omega
    have : u = v := Fin.ext this
    subst this
    exact Nat.le_refl _

/-- The forward scan returns the least matching row index at or after its
start, proved by fuel induction on the remaining distance. -/
theorem scanRowsFrom_eq_some (q : String) (rows : List (List String)) :
    ∀ (k start j : Nat), j - start ≤ k → start ≤ j → j < rows.length →
      rowMatches q (rows.getD j []) = true →
      (∀ t, start ≤ t → t < j → rowMatches q (rows.getD t []) = false) →
      scanRowsFrom q rows start = some j := by
  intro k
  induction k with
  | zero =>
    intro start j hk hsj hj hm _
    have heq : start = j := by omega
    subst heq
    rw [scanRowsFrom, dif_pos hj, if_pos hm]
  | succ k ih =>
    intro start j hk hsj hj hm hmin
    by_cases heq : start = j
    · subst heq
      rw [scanRowsFrom, dif_pos hj, if_pos hm]
    · have hlt : start < j := by omega
      have hlen : start < rows.length := by omega
      have hnm : rowMatches q (rows.getD start []) = false := hmin start (Nat.le_refl _) hlt
      rw [scanRowsFrom, dif_pos hlen, hnm, if_neg (by simp)]
      exact ih (start + 1) j (by omega) (by omega) hj hm
        (fun t ht1 ht2 => hmin t (by omega) ht2)

/-- The forward scan returns nothing when no row at or after its start
matches. -/
theorem scanRowsFrom_eq_none (q : String) (rows : List (List String)) :
    ∀ (k start : Nat), rows.length - start ≤ k →
      (∀ t, start ≤ t → t < rows.length → rowMatches q (rows.getD t []) = false) →
      scanRowsFrom q rows start = none := by
  intro k
  induction k with
  | zero =>
    intro start hk _
    have : ¬(start < rows.length) := by omega
    rw [scanRowsFrom, dif_neg this]
  | succ k ih =>
    intro start hk hmin
    by_cases hlen : start < rows.length
    · have hnm : rowMatches q (rows.getD start []) = false :=
        hmin start (Nat.le_refl _) hlen
      rw [scanRowsFrom, dif_pos hlen, hnm, if_neg (by simp)]
      exact ih (start + 1) (by omega) (fun t ht1 ht2 => hmin t (by omega) ht2)
    · rw [scanRowsFrom, dif_neg hlen]

/-- The wrap-around scan returns the least matching row index within its
bound. -/
theorem scanRowsUpTo_eq_some (q : String) (rows : List (List String)) (stop : Nat) :
    ∀ (k start j : Nat), j - start ≤ k → start ≤ j → j ≤ stop → j < rows.length →
      rowMatches q (rows.getD j []) = true →
      (∀ t, start ≤ t → t < j → rowMatches q (rows.getD t []) = false) →
      scanRowsUpTo q rows stop start = some j := by
  intro k
  induction k with
  | zero =>
    intro start j hk hsj hstop hj hm _
    have heq : start = j := by omega
    subst heq
    rw [scanRowsUpTo, if_pos hstop, if_pos hj, if_pos hm]
  | succ k ih =>
    intro start j hk hsj hstop hj hm hmin
    by_cases heq : start = j
    · subst heq
      rw [scanRowsUpTo, if_pos hstop, if_pos hj, if_pos hm]
    · have hlt : start < j := by omega
      have hnm : rowMatches q (rows.getD start []) = false := hmin start (Nat.le_refl _) hlt
      rw [scanRowsUpTo, if_pos (by omega : start ≤ stop), if_pos (by omega : start < rows.length),
        hnm, if_neg (by simp)]
      exact ih (start + 1) j (by omega) (by omega) hstop hj hm
        (fun t ht1 ht2 => hmin t (by omega) ht2)

/-- Above the greatest recorded match there is no matching row. -/
theorem no_match_above_get (q : String) (rows : List (List String))
    (u : Fin (matchIndices q rows).length)
    (hbig : ∀ w : Fin (matchIndices q rows).length, (w : Nat) ≤ (u : Nat)) :
    ∀ t, (matchIndices q rows).get u < t → t < rows.length →
      rowMatches q (rows.getD t []) = false := by
  intro t ht hlen
  by_contra hc
  have hm : rowMatches q (rows.getD t []) = true := by
    cases hx : rowMatches q (rows.getD t []) with
    | false => exact absurd hx hc
    | true => rfl
  have hmem : t ∈ matchIndices q rows := (matchIndices_mem q rows t).mpr ⟨hlen, hm⟩
  rcases List.mem_iff_get.mp hmem with ⟨w, hw⟩
  have hle := matchIndices_get_le q rows w u (hbig w)
  omega

/-- Between two consecutive recorded matches there is no matching row. -/
theorem no_match_between_get (q : String) (rows : List (List String))
    (i : Nat) (hi : i < (matchIndices q rows).length)
    (hi1 : i + 1 < (matchIndices q rows).length) :
    ∀ t, (matchIndices q rows).get ⟨i, hi⟩ < t →
      t < (matchIndices q rows).get ⟨i + 1, hi1⟩ →
      rowMatches q (rows.getD t []) = false := by
  intro t ht1 ht2
  by_contra hc
  have hm : rowMatches q (rows.getD t []) = true := by
    cases hx : rowMatches q (rows.getD t []) with
    | false => exact absurd hx hc
    | true => rfl
  have hlen2 : (matchIndices q rows).get ⟨i + 1, hi1⟩ < rows.length := by
    have := (matchIndices_mem q rows ((matchIndices q rows).get ⟨i + 1, hi1⟩)).mp
      (List.get_mem _ _ _)
    exact this.1
  have hmem : t ∈ matchIndices q rows :=
    (matchIndices_mem q rows t).mpr ⟨by omega, hm⟩
  rcases List.mem_iff_get.mp hmem with ⟨w, hw⟩
  by_cases hwi : (w : Nat) ≤ i
  · have := matchIndices_get_le q rows w ⟨i, hi⟩ hwi
    omega
  · have hwge : i + 1 ≤ (w : Nat) := by omega
    have := matchIndices_get_le q rows ⟨i + 1, hi1⟩ w hwge
    omega

/-- Below the first recorded match there is no matching row. -/
theorem no_match_below_first (q : String) (rows : List (List String))
    (h0 : 0 < (matchIndices q rows).length) :
    ∀ t, t < (matchIndices q rows).get ⟨0, h0⟩ →
      rowMatches q (rows.getD t []) = false := by
  intro t ht
  by_contra hc
  have hm : rowMatches q (rows.getD t []) = true := by
    cases hx : rowMatches q (rows.getD t []) with
    | false => exact absurd hx hc
    | true => rfl
  have hlen0 : (matchIndices q rows).get ⟨0, h0⟩ < rows.length :=
    ((matchIndices_mem q rows _).mp (List.get_mem _ _ _)).1
  have hmem : t ∈ matchIndices q rows :=
    (matchIndices_mem q rows t).mpr ⟨by omega, hm⟩
  rcases List.mem_iff_get.mp hmem with ⟨w, hw⟩
  have := matchIndices_get_le q rows ⟨0, h0⟩ w (Nat.zero_le _)
  omega

/-- C5: searching the list widget scans every row case-insensitively in row
order; the search count equals the number of matching rows, the cursor jumps
to the first matching row when one exists and is unchanged (with the no-match
marker -1) otherwise; and from the i-th recorded match, NextSearchMatch moves
the cursor to the (i+1 mod matchCount)-th recorded match, cycling circularly
through the recorded match indices, leaving rows, query and count
unchanged. -/
theorem table_search_and_cycle :
    (∀ (m : TableSearchState) (query : String), query ≠ "" →
      (TableModel.Search m query).searchQuery = query ∧
        (TableModel.Search m query).rows = m.rows ∧
        (TableModel.Search m query).searchCount
          = (matchIndices (goToLower query) m.rows).length ∧
        (∀ j rest, matchIndices (goToLower query) m.rows = j :: rest →
          (TableModel.Search m query).cursor = j ∧
            (TableModel.Search m query).searchIndex = 0) ∧
        (matchIndices (goToLower query) m.rows = [] →
          (TableModel.Search m query).cursor = m.cursor ∧
            (TableModel.Search m query).searchIndex = -1)) ∧
    (∀ (m : TableSearchState) (i : Nat),
      m.searchQuery ≠ "" →
      m.searchCount = (matchIndices (goToLower m.searchQuery) m.rows).length →
      m.searchIndex = (i : Int) →
      i < (matchIndices (goToLower m.searchQuery) m.rows).length →
      m.cursor = (matchIndices (goToLower m.searchQuery) m.rows).getD i 0 →
      (TableModel.NextSearchMatch m).cursor
        = (matchIndices (goToLower m.searchQuery) m.rows).getD
            ((i + 1) % (matchIndices (goToLower m.searchQuery) m.rows).length) 0 ∧
        (TableModel.NextSearchMatch m).searchIndex
          = (((i + 1) % (matchIndices (goToLower m.searchQuery) m.rows).length : Nat) : Int) ∧
        (TableModel.NextSearchMatch m).searchQuery = m.searchQuery ∧
        (TableModel.NextSearchMatch m).rows = m.rows ∧
        (TableModel.NextSearchMatch m).searchCount = m.searchCount) := by
  constructor
  · intro m query hq
    have hqb : (query == "") = false := beq_eq_false_iff_ne.mpr hq
    cases hms : matchIndices (goToLower query) m.rows with
    | nil =>
      refine ⟨?_, ?_, ?_, ?_, ?_⟩ <;>
        simp [TableModel.Search, hqb, hms]
    | cons j rest =>
      refine ⟨?_, ?_, ?_, ?_, ?_⟩ <;>
        simp [TableModel.Search, hqb, hms]
  · intro m i hq hcount hidx hi hcur
    have hqb : (m.searchQuery == "") = false := beq_eq_false_iff_ne.mpr hq
    have hklen : 0 < (matchIndices (goToLower m.searchQuery) m.rows).length := by omega
    have hcb : (m.searchCount == 0) = false := by
      rw [hcount]
      simp only [beq_eq_false_iff_ne, ne_eq]
      omega
    have hcond : (m.searchQuery == "" || m.searchCount == 0) = false := by
      rw [hqb, hcb]
      rfl
    have hcurget : m.cursor = (matchIndices (goToLower m.searchQuery) m.rows).get ⟨i, hi⟩ := by
      rw [hcur]
      exact List.getD_eq_get _ _ hi
    by_cases hlast : i + 1 < (matchIndices (goToLower m.searchQuery) m.rows).length
    · -- interior step: the forward scan finds the next recorded match
      have hj1mem : (matchIndices (goToLower m.searchQuery) m.rows).get ⟨i + 1, hlast⟩
          ∈ matchIndices (goToLower m.searchQuery) m.rows := List.get_mem _ _ _
      have hj1 := (matchIndices_mem _ _ _).mp hj1mem
      have hcurlt : (matchIndices (goToLower m.searchQuery) m.rows).get ⟨i, hi⟩
          < (matchIndices (goToLower m.searchQuery) m.rows).get ⟨i + 1, hlast⟩ :=
        matchIndices_get_lt _ _ _ _ (by simp)
      have hscan : scanRowsFrom (goToLower m.searchQuery) m.rows (m.cursor + 1)
          = some ((matchIndices (goToLower m.searchQuery) m.rows).get ⟨i + 1, hlast⟩) := by
        refine scanRowsFrom_eq_some (goToLower m.searchQuery) m.rows
          ((matchIndices (goToLower m.searchQuery) m.rows).get ⟨i + 1, hlast⟩)
          (m.cursor + 1)
          ((matchIndices (goToLower m.searchQuery) m.rows).get ⟨i + 1, hlast⟩)
          ?_ ?_ hj1.1 hj1.2 ?_
        · exact Nat.sub_le _ _
        · rw [hcurget]
          exact hcurlt
        · intro t ht1 ht2
          refine no_match_between_get (goToLower m.searchQuery) m.rows i hi hlast t ?_ ht2
          rw [hcurget] at ht1
          omega
      have hmod : (i + 1) % (matchIndices (goToLower m.searchQuery) m.rows).length
          = i + 1 := Nat.mod_eq_of_lt hlast
      have hgetd : (matchIndices (goToLower m.searchQuery) m.rows).getD (i + 1) 0
          = (matchIndices (goToLower m.searchQuery) m.rows).get ⟨i + 1, hlast⟩ :=
        List.getD_eq_get _ _ hlast
      have hcast : (m.searchIndex + 1) % ((m.searchCount : Nat) : Int)
          = (((i + 1) % (matchIndices (goToLower m.searchQuery) m.rows).length : Nat)
              : Int) := by
        rw [hidx, hcount, hmod]
        have h1 : ((i : Int) + 1) = ((i + 1 : Nat) : Int) := by push_cast; ring
        rw [h1]
        rw [Int.emod_eq_of_lt (by positivity) (by exact_mod_cast hlast)]
      refine ⟨?_, ?_, ?_, ?_, ?_⟩ <;>
        simp only [TableModel.NextSearchMatch, hcond, Bool.false_eq_true, if_false, hscan]
      · rw [hmod, hgetd]
      · simpa using hcast
    · -- last match: the forward scan fails, the wrap-around scan returns to
      -- the first recorded match
      have hieq : i + 1 = (matchIndices (goToLower m.searchQuery) m.rows).length := by
        omega
      have hnone : scanRowsFrom (goToLower m.searchQuery) m.rows (m.cursor + 1)
          = none := by
        refine scanRowsFrom_eq_none (goToLower m.searchQuery) m.rows m.rows.length
          (m.cursor + 1) ?_ ?_
        · omega
        · intro t ht1 ht2
          refine no_match_above_get (goToLower m.searchQuery) m.rows ⟨i, hi⟩ ?_ t ?_ ht2
          · intro w
            show (w : Nat) ≤ i
            have := w.isLt
            omega
          · show (matchIndices (goToLower m.searchQuery) m.rows).get ⟨i, hi⟩ < t
            omega
      have h0mem : (matchIndices (goToLower m.searchQuery) m.rows).get ⟨0, hklen⟩
          ∈ matchIndices (goToLower m.searchQuery) m.rows := List.get_mem _ _ _
      have h0 := (matchIndices_mem _ _ _).mp h0mem
      have h0le : (matchIndices (goToLower m.searchQuery) m.rows).get ⟨0, hklen⟩
          ≤ (matchIndices (goToLower m.searchQuery) m.rows).get ⟨i, hi⟩ :=
        matchIndices_get_le _ _ _ _ (Nat.zero_le _)
      have hwrap : scanRowsUpTo (goToLower m.searchQuery) m.rows m.cursor 0
          = some ((matchIndices (goToLower m.searchQuery) m.rows).get ⟨0, hklen⟩) := by
        refine scanRowsUpTo_eq_some (goToLower m.searchQuery) m.rows m.cursor
          ((matchIndices (goToLower m.searchQuery) m.rows).get ⟨0, hklen⟩) 0
          ((matchIndices (goToLower m.searchQuery) m.rows).get ⟨0, hklen⟩)
          ?_ (Nat.zero_le _) ?_ h0.1 h0.2 ?_
        · omega
        · omega
        · intro t ht1 ht2
          exact no_match_below_first (goToLower m.searchQuery) m.rows hklen t ht2
      have hmod : (i + 1) % (matchIndices (goToLower m.searchQuery) m.rows).length
          = 0 := by
        rw [hieq, Nat.mod_self]
      have hgetd : (matchIndices (goToLower m.searchQuery) m.rows).getD 0 0
          = (matchIndices (goToLower m.searchQuery) m.rows).get ⟨0, hklen⟩ :=
        List.getD_eq_get _ _ hklen
      refine ⟨?_, ?_, ?_, ?_, ?_⟩ <;>
        simp only [TableModel.NextSearchMatch, hcond, Bool.false_eq_true, if_false,
          hnone, hwrap]
      · rw [hmod, hgetd]
      · simp [hmod]


/-- C5 witness: the theorem applied to a six-row list whose query matches
exactly rows 2 and 5: the count is 2, the cursor jumps to row 2, cycles to
row 5, and wraps back to row 2. -/
theorem table_search_and_cycle_witness :
    (TableModel.Search searchDemoState "xkey").searchCount = 2 ∧
      (TableModel.Search searchDemoState "xkey").cursor = 2 ∧
      (TableModel.NextSearchMatch (TableModel.Search searchDemoState "xkey")).cursor = 5 ∧
      (TableModel.NextSearchMatch (TableModel.NextSearchMatch
        (TableModel.Search searchDemoState "xkey"))).cursor = 2 := by
  have hsearch := table_search_and_cycle.1 searchDemoState "xkey" (by decide)
  have hms : matchIndices (goToLower "xkey") searchDemoState.rows = [2, 5] := by decide
  have hcount : (TableModel.Search searchDemoState "xkey").searchCount = 2 := by
    rw [hsearch.2.2.1, hms]
    rfl
  have hcursor := (hsearch.2.2.2.1 2 [5] hms).1
  have h1 := table_search_and_cycle.2 (TableModel.Search searchDemoState "xkey") 0
    (by decide) (by decide) (by decide) (by decide) (by decide)
  have hnext1 : (TableModel.NextSearchMatch (TableModel.Search searchDemoState "xkey")).cursor
      = 5 := by
    rw [h1.1]
    decide
  -- hypotheses about the second step, transported along the frame equalities
  have hfq := h1.2.2.1
  have hfr := h1.2.2.2.1
  have hfc := h1.2.2.2.2
  have h2 := table_search_and_cycle.2
    (TableModel.NextSearchMatch (TableModel.Search searchDemoState "xkey")) 1
    (by rw [hfq]; decide)
    (by rw [hfc, hfq, hfr]; decide)
    (by rw [h1.2.1]; decide)
    (by rw [hfq, hfr]; decide)
    (by rw [hnext1, hfq, hfr]; decide)
  have hnext2 : (TableModel.NextSearchMatch (TableModel.NextSearchMatch
      (TableModel.Search searchDemoState "xkey"))).cursor = 2 := by
    rw [h2.1, hfq, hfr]
    decide
  exact ⟨hcount, hcursor, hnext1, hnext2⟩
